import Mathlib

/-!
# Verification of the ethers-signers signing core

A shallow embedding of `ethers-signers/src/lib.rs` and
`ethers-signers/src/wallet/mod.rs`: the EIP-155 `v` transform, the
`Wallet` signing pipeline (`sign_hash`, `sign_message`, `sign_transaction`,
`sign_transaction_sync`, `sign_typed_data`), the `Debug` rendering, and the
Tron address derivation (`to_tron_hex_address`, `to_tron_b58_address`).

Machine integers are modelled as `Nat` with explicit `% 2^64` / `% 256`
where Rust's `u64` / `u8` arithmetic wraps.  The raw signing capability
(Rust's generic `D : DigestSigner<Sha256Proxy, RecoverableSignature>`) is
modelled as a function from a 32-byte digest (a `Nat`) to a raw recoverable
signature; the `recoverable::Id` of the k256 crate only admits the values
0 and 1, which the model renders as `Fin 2`.
-/

namespace EthersSigners

/-- Wrap-around modulus of Rust `u64` arithmetic. -/
def u64Mod : Nat := 18446744073709551616

/-- `pub fn to_eip155_v<T: Into<u8>>(recovery_id: T, chain_id: u64) -> u64`
from `lib.rs`: `(recovery_id.into() as u64) + 35 + chain_id * 2`, computed
in `u64` arithmetic (the recovery id passes through `u8` first). -/
def to_eip155_v (recoveryId : Nat) (chainId : Nat) : Nat :=
  ((recoveryId % 256) + 35 + (chainId * 2) % u64Mod) % u64Mod

/-- A raw recoverable ECDSA signature as returned by the signing
capability: field scalars `r`, `s` (256-bit, already decoded from their
big-endian field bytes) and the recovery id (k256 `recoverable::Id`,
which only admits 0 or 1). -/
structure RawSignature where
  r : Nat
  s : Nat
  recid : Fin 2
deriving DecidableEq

/-- `ethers_core::types::Signature`: `{ r: U256, s: U256, v: u64 }`. -/
structure Signature where
  r : Nat
  s : Nat
  v : Nat
deriving DecidableEq

/-- The `Wallet<D>` struct of `wallet/mod.rs`.  The generic digest-signing
capability `D` is embedded as the function `signer` from a digest to a raw
recoverable signature (Rust: `self.signer.sign_digest(Sha256Proxy::from(hash))`);
`address` is the 20-byte account address, `chain_id` the stored `u64`. -/
structure Wallet where
  signer : Nat → RawSignature
  address : List Nat
  chain_id : Nat

/-- `fn with_chain_id<T: Into<u64>>(mut self, chain_id: T) -> Self`:
replaces the stored chain id. -/
def with_chain_id (w : Wallet) (chainId : Nat) : Wallet :=
  { w with chain_id := chainId }

/-- `pub fn sign_hash(&self, hash: H256) -> Signature`: delegates to the raw
capability, sets `v = recovery_id + 27` and copies `r`, `s` verbatim from
the raw signature's field elements. -/
def sign_hash (w : Wallet) (hash : Nat) : Signature :=
  let raw := w.signer hash
  { r := raw.r, s := raw.s, v := (raw.recid : Nat) + 27 }

/-- A `TypedTransaction` as seen by this crate: an optional `u64` chain id
plus an opaque payload (the rest of the transaction's fields, which only
the external `sighash` serializer inspects). -/
structure Tx where
  chainId : Option Nat
  payload : List Nat
deriving DecidableEq

/-- `tx.set_chain_id(id)`. -/
def setChainId (tx : Tx) (chainId : Nat) : Tx :=
  { tx with chainId := some chainId }

/-- `pub fn sign_transaction_sync(&self, tx: &TypedTransaction) -> Signature`:
picks the transaction's chain id if present, else the wallet's; re-sets the
chain id on the transaction, hashes it with the external `sighash`
serializer (passed as a function argument, it lives in `ethers-core`),
signs, and replaces `v` by `to_eip155_v(sig.v as u8 - 27, chain_id)`
(`u8` arithmetic for the subtraction). -/
def sign_transaction_sync (sighash : Tx → Nat) (w : Wallet) (tx : Tx) :
    Signature :=
  let chainId := tx.chainId.getD w.chain_id
  let tx' := setChainId tx chainId
  let sig := sign_hash w (sighash tx')
  { sig with v := to_eip155_v ((sig.v % 256 + 256 - 27) % 256) chainId }

/-- `async fn sign_transaction(&self, tx: &TypedTransaction)`: if the
transaction has no chain id, substitutes the wallet's stored one, then
defers to `sign_transaction_sync`.  The local backend never suspends, so
the `async` shape is dropped; the function always returns `Ok`. -/
def sign_transaction (sighash : Tx → Nat) (w : Wallet) (tx : Tx) :
    Signature :=
  let txWithChain :=
    match tx.chainId with
    | none => setChainId tx w.chain_id
    | some _ => tx
  sign_transaction_sync sighash w txWithChain

/-- Modelled from the spec: the fixed message-prefix domain separator of
the message hasher (`ethers_core::utils::hash_message`, which lives
outside this crate): the byte 0x19 followed by the ASCII bytes of
`Ethereum Signed Message:` and a newline. -/
def messageHeaderBytes : List Nat :=
  ("\x19Ethereum Signed Message:\n").toList.map Char.toNat

/-- Modelled from the spec: the ASCII decimal length string appended to
the domain separator by the message hasher. -/
def lengthBytes (n : Nat) : List Nat :=
  (Nat.repr n).toList.map Char.toNat

/-- Modelled from the spec: `hash_message` of `ethers-core` computes
`digest = keccak(header || length_string || raw_bytes)`.  The keccak
permutation itself is out of scope; it is abstracted as the function
argument `hash`. -/
def hash_message (hash : List Nat → Nat) (msg : List Nat) : Nat :=
  hash (messageHeaderBytes ++ lengthBytes msg.length ++ msg)

/-- `async fn sign_message(&self, message)`: hashes the message under the
domain separator, then signs the digest.  Always returns `Ok`, so the
`Result` wrapper is dropped. -/
def sign_message (hash : List Nat → Nat) (w : Wallet) (msg : List Nat) :
    Signature :=
  sign_hash w (hash_message hash msg)

/-- The `WalletError::Eip712Error(String)` variant used by
`sign_typed_data` (the enum itself lives in `wallet/private_key.rs`,
outside the provided sources; the variant's shape is fixed by its use
site `Self::Error::Eip712Error(e.to_string())`). -/
inductive WalletError where
  | eip712Error (msg : String)
deriving DecidableEq

/-- An EIP-712 payload as seen by this crate: only its
`encode_eip712() -> Result<[u8; 32], _>` outcome matters, so the payload
is embedded as that outcome (error message or 32-byte digest). -/
structure Eip712Payload where
  encodeEip712 : Except String Nat

/-- `async fn sign_typed_data(&self, payload)`: runs the payload's
encoder; on failure wraps the encoder's message in
`WalletError::Eip712Error`, on success signs the returned digest
directly. -/
def sign_typed_data (w : Wallet) (p : Eip712Payload) :
    Except WalletError Signature :=
  match p.encodeEip712 with
  | Except.error e => Except.error (WalletError.eip712Error e)
  | Except.ok d => Except.ok (sign_hash w d)

/-- A concrete raw signing capability used for concrete evaluations:
always answers `r = 5`, `s = 7`, recovery id 0. -/
def cexSigner : Nat → RawSignature := fun _ => ⟨5, 7, 0⟩

/-- A concrete wallet with chain id 0 (the unset/legacy default). -/
def cexWallet : Wallet := ⟨cexSigner, List.replicate 20 0, 0⟩

/-- A concrete transaction that carries no chain id. -/
def cexTx : Tx := ⟨none, []⟩

/-- A concrete transaction serializer mapping every transaction to
digest 0. -/
def cexSighash : Tx → Nat := fun _ => 0

/-- The `fmt::Debug` implementation for `Wallet`
(`f.debug_struct("Wallet").field("address", ..).field("chain_Id", ..)`):
renders only the address and the chain id, never the signer.  The
rendering of the address value (ethers `H160`'s own `Debug`) is external
and passed as `addrShow`. -/
def debugFmt (addrShow : List Nat → String) (w : Wallet) : String :=
  "Wallet \x7b address: " ++ addrShow w.address ++
    ", chain_Id: " ++ Nat.repr w.chain_id ++ " \x7d"

/-- Truncation to 32 bits. -/
def w32 (x : Nat) : Nat := x % 4294967296

/-- 32-bit right rotation. -/
def rotr32 (n x : Nat) : Nat := w32 ((x >>> n) ||| (x <<< (32 - n)))

/-- Modelled from the spec: SHA-256 Σ0 (the `sha2` crate is external). -/
def bigS0 (x : Nat) : Nat := rotr32 2 x ^^^ rotr32 13 x ^^^ rotr32 22 x

/-- Modelled from the spec: SHA-256 Σ1. -/
def bigS1 (x : Nat) : Nat := rotr32 6 x ^^^ rotr32 11 x ^^^ rotr32 25 x

/-- Modelled from the spec: SHA-256 σ0. -/
def smallS0 (x : Nat) : Nat := rotr32 7 x ^^^ rotr32 18 x ^^^ (x >>> 3)

/-- Modelled from the spec: SHA-256 σ1. -/
def smallS1 (x : Nat) : Nat := rotr32 17 x ^^^ rotr32 19 x ^^^ (x >>> 10)

/-- Modelled from the spec: SHA-256 `Ch`. -/
def chF (x y z : Nat) : Nat := (x &&& y) ^^^ ((x ^^^ 4294967295) &&& z)

/-- Modelled from the spec: SHA-256 `Maj`. -/
def majF (x y z : Nat) : Nat := (x &&& y) ^^^ (x &&& z) ^^^ (y &&& z)

/-- Modelled from the spec: the 64 SHA-256 round constants. -/
def sha256K : List Nat := [
  1116352408, 1899447441, 3049323471, 3921009573, 961987163,
  1508970993, 2453635748, 2870763221, 3624381080, 310598401,
  607225278, 1426881987, 1925078388, 2162078206, 2614888103,
  3248222580, 3835390401, 4022224774, 264347078, 604807628,
  770255983, 1249150122, 1555081692, 1996064986, 2554220882,
  2821834349, 2952996808, 3210313671, 3336571891, 3584528711,
  113926993, 338241895, 666307205, 773529912, 1294757372,
  1396182291, 1695183700, 1986661051, 2177026350, 2456956037,
  2730485921, 2820302411, 3259730800, 3345764771, 3516065817,
  3600352804, 4094571909, 275423344, 430227734, 506948616,
  659060556, 883997877, 958139571, 1322822218, 1537002063,
  1747873779, 1955562222, 2024104815, 2227730452, 2361852424,
  2428436474, 2756734187, 3204031479, 3329325298]

/-- Modelled from the spec: the SHA-256 initial hash state. -/
def sha256InitH : List Nat := [
  1779033703, 3144134277, 1013904242,
  2773480762, 1359893119, 2600822924,
  528734635, 1541459225]

/-- Big-endian 4-byte grouping of a byte list into 32-bit words. -/
def bytesToWords : List Nat → List Nat
  | a :: b :: c :: d :: rest =>
      (((a * 256 + b) * 256 + c) * 256 + d) :: bytesToWords rest
  | _ => []

/-- Big-endian bytes of a 32-bit word. -/
def wordBytes (wd : Nat) : List Nat :=
  [wd / 16777216 % 256, wd / 65536 % 256, wd / 256 % 256, wd % 256]

/-- Modelled from the spec: extension of the 16-word block to the 64-word
SHA-256 message schedule (the counter is the number of words still to
append). -/
def extendW (ws : List Nat) : Nat → List Nat
  | 0 => ws
  | n + 1 =>
      let l := ws.length
      let t := w32 (smallS1 (ws.getD (l - 2) 0) + ws.getD (l - 7) 0 +
                    smallS0 (ws.getD (l - 15) 0) + ws.getD (l - 16) 0)
      extendW (ws ++ [t]) n

/-- Modelled from the spec: the SHA-256 compression rounds over the list
of (round constant, schedule word) pairs, acting on the 8-word working
state. -/
def compressRounds : List Nat → List (Nat × Nat) → List Nat
  | s, [] => s
  | [a, b, c, d, e, f, g, h], (k, wd) :: rest =>
      let t1 := w32 (h + bigS1 e + chF e f g + k + wd)
      let t2 := w32 (bigS0 a + majF a b c)
      compressRounds [w32 (t1 + t2), a, b, c, w32 (d + t1), e, f, g] rest
  | s, _ :: rest => compressRounds s rest

/-- Modelled from the spec: one SHA-256 block step: schedule extension,
64 compression rounds, then word-wise addition into the running state. -/
def processBlock (hs : List Nat) (block : List Nat) : List Nat :=
  let ws := extendW (bytesToWords block) 48
  let out := compressRounds hs (sha256K.zip ws)
  List.zipWith (fun a b => w32 (a + b)) hs out

/-- Modelled from the spec: SHA-256 padding: append `0x80`, zeros up to 56
mod 64, then the 8-byte big-endian bit length. -/
def sha256Pad (msg : List Nat) : List Nat :=
  let L := msg.length
  let k := (120 - (L + 1) % 64) % 64
  msg ++ [128] ++ List.replicate k 0 ++
    (List.range 8).map (fun i => ((L * 8) >>> ((7 - i) * 8)) % 256)

/-- Fuel-driven iteration of `processBlock` over successive 64-byte
blocks (the padded input's length is a sufficient fuel bound). -/
def sha256Blocks : Nat → List Nat → List Nat → List Nat
  | 0, hs, _ => hs
  | _ + 1, hs, [] => hs
  | fuel + 1, hs, msg =>
      sha256Blocks fuel (processBlock hs (msg.take 64)) (msg.drop 64)

/-- Modelled from the spec: SHA-256 of a byte list, as computed by the
external `sha2` crate used by `to_tron_b58_address`. -/
def sha256 (msg : List Nat) : List Nat :=
  let padded := sha256Pad msg
  ((sha256Blocks padded.length sha256InitH padded).map wordBytes).flatten

/-- Modelled from the spec: the standard base58 alphabet table. -/
def base58Chars : List Char :=
  ("123456789ABCDEFGHJKLMNPQRSTUVWXYZabcdefghijkmnopqrstuvwxyz").toList

/-- Base58 digits of `n`, least significant first (fuel-driven; two
digits per input byte is a sufficient bound). -/
def base58DigitsRev : Nat → Nat → List Nat
  | 0, _ => []
  | fuel + 1, n => if n = 0 then [] else n % 58 :: base58DigitsRev fuel (n / 58)

/-- Modelled from the spec: the `base58` crate's `ToBase58` for a byte
slice: interpret the bytes as a big-endian number, emit base58 digits,
and render each leading zero byte as `1`. -/
def to_base58 (bytes : List Nat) : String :=
  let n := bytes.foldl (fun acc b => acc * 256 + b) 0
  let ds := (base58DigitsRev (2 * bytes.length + 1) n).reverse
  let ones := (bytes.takeWhile (fun b => b == 0)).map (fun _ => '1')
  String.mk (ones ++ ds.map (fun d => base58Chars.getD d '1'))

/-- Modelled from the spec: the `hex` crate's lowercase digit table. -/
def hexDigits : List Char := ("0123456789abcdef").toList

/-- Modelled from the spec: lowercase hex encoding of a byte list
(`hex::encode`). -/
def hexEncode (bytes : List Nat) : String :=
  String.mk ((bytes.map
    (fun b => [hexDigits.getD (b / 16 % 16) '0', hexDigits.getD (b % 16) '0'])).flatten)

/-- `fn to_tron_hex_address(&self) -> String`: hex-encode the 21-byte
buffer `0x41` followed by the 20 address bytes (`[0x41; 21]` with bytes
1..21 overwritten by the address). -/
def to_tron_hex_address (w : Wallet) : String :=
  hexEncode (65 :: w.address)

/-- `fn to_tron_b58_address(&self) -> String`: the 21-byte prefixed
buffer, extended by the first 4 bytes of its double SHA-256, rendered in
base58. -/
def to_tron_b58_address (w : Wallet) : String :=
  let raw := 65 :: w.address
  let digest := sha256 (sha256 raw)
  to_base58 (raw ++ digest.take 4)

/-- Modelled from the spec: the 20-byte account address derived upstream
from the private key
`0x427139B43028A492E2705BCC9C64172392B8DB59F3BA1AEDAE41C88924960091`
(standard-address derivation from the key is out of scope per the spec;
the spec's test vector fixes these bytes). -/
def tronTestAddress : List Nat :=
  [0x2A, 0x2B, 0x9F, 0x76, 0x41, 0xD0, 0x75, 0x0C, 0x1E, 0x82,
   0x2D, 0x0E, 0x49, 0xEF, 0x76, 0x5C, 0x81, 0x06, 0x52, 0x4B]

/-- The wallet holding the key of the spec's Tron test vector. -/
def tronTestWallet : Wallet := ⟨cexSigner, tronTestAddress, 0⟩

/-- A second concrete wallet: same address and chain id as `cexWallet`
but a different raw signing capability. -/
def cexWallet2 : Wallet := ⟨fun _ => ⟨9, 11, 1⟩, List.replicate 20 0, 0⟩

/-! ## C1: the EIP-155 `v` round-trip -/

/-- **C1.** For every `recovery_id ∈ {0,1}` and `network_id ∈ [0, 2^32)`,
`to_eip155_v recovery_id network_id = recovery_id + 35 + network_id * 2`
(no `u64` wrap occurs in this range), and subtracting 35 then taking
mod 2 / div 2 recovers the original pair. -/
theorem to_eip155_v_round_trip (recoveryId networkId : Nat)
    (hr : recoveryId ≤ 1) (hn : networkId < 4294967296) :
    to_eip155_v recoveryId networkId = recoveryId + 35 + networkId * 2 ∧
    (to_eip155_v recoveryId networkId - 35) % 2 = recoveryId ∧
    (to_eip155_v recoveryId networkId - 35) / 2 = networkId := by
  have h1 : recoveryId % 256 = recoveryId := Nat.mod_eq_of_lt (by omega)
  have h2 : networkId * 2 < u64Mod := by unfold u64Mod; omega
  have h3 : (networkId * 2) % u64Mod = networkId * 2 := Nat.mod_eq_of_lt h2
  have h4 : recoveryId + 35 + networkId * 2 < u64Mod := by unfold u64Mod; omega
  unfold to_eip155_v
  rw [h1, h3, Nat.mod_eq_of_lt h4]
  refine ⟨rfl, ?_, ?_⟩ <;> omega

/-- Witness for `to_eip155_v_round_trip` at `recovery_id = 1`,
`network_id = 1337`. -/
theorem to_eip155_v_round_trip_witness :
    to_eip155_v 1 1337 = 1 + 35 + 1337 * 2 ∧
    (to_eip155_v 1 1337 - 35) % 2 = 1 ∧
    (to_eip155_v 1 1337 - 35) / 2 = 1337 :=
  to_eip155_v_round_trip 1 1337 (by decide) (by decide)

/-- The `sig.v as u8 - 27` step of `sign_transaction_sync` recovers the
recovery id from the `v = recid + 27` produced by `sign_hash` (`u8`
wrapping arithmetic). -/
theorem recid_u8_round (r : Fin 2) :
    (((r : Nat) + 27) % 256 + 256 - 27) % 256 = (r : Nat) := by
  have := r.isLt
  omega

/-! ## C2: transaction chain-id precedence -/

/-- **C2.** If the transaction carries an explicit chain id `c`, both the
signing digest (`sighash` of the transaction with chain id `c`) and the
`v` encoding use `c`, whatever the wallet's stored chain id; if the
transaction's chain id is unset, the wallet's stored chain id is used for
both, so digest and `v` always agree on the same chain id. -/
theorem sign_transaction_chain_id_precedence (sighash : Tx → Nat)
    (w : Wallet) (tx : Tx) :
    (∀ c, tx.chainId = some c →
       sign_transaction sighash w tx =
         { r := (w.signer (sighash (setChainId tx c))).r
           s := (w.signer (sighash (setChainId tx c))).s
           v := (((w.signer (sighash (setChainId tx c))).recid : Nat)
                   + 35 + c * 2) % u64Mod }) ∧
    (tx.chainId = none →
       sign_transaction sighash w tx =
         { r := (w.signer (sighash (setChainId tx w.chain_id))).r
           s := (w.signer (sighash (setChainId tx w.chain_id))).s
           v := (((w.signer (sighash (setChainId tx w.chain_id))).recid : Nat)
                   + 35 + w.chain_id * 2) % u64Mod }) := by
  constructor
  · intro c hc
    simp only [sign_transaction, sign_transaction_sync, sign_hash, hc,
      Option.getD_some, Signature.mk.injEq, setChainId]
    refine ⟨trivial, trivial, ?_⟩
    have := (w.signer (sighash { tx with chainId := some c })).recid.isLt
    unfold to_eip155_v u64Mod
    omega
  · intro hc
    simp only [sign_transaction, sign_transaction_sync, sign_hash, hc,
      setChainId, Option.getD_some, Signature.mk.injEq]
    refine ⟨trivial, trivial, ?_⟩
    have := (w.signer (sighash
      { tx with chainId := some w.chain_id })).recid.isLt
    unfold to_eip155_v u64Mod
    omega

/-- Witness for `sign_transaction_chain_id_precedence`: a transaction
declaring chain id 5 signed by a wallet whose stored chain id is 0 gets
`v = 0 + 35 + 5 * 2 = 45`. -/
theorem sign_transaction_chain_id_precedence_witness :
    sign_transaction cexSighash cexWallet ⟨some 5, []⟩ =
      { r := 5, s := 7, v := 45 } := by
  have h :=
    (sign_transaction_chain_id_precedence cexSighash cexWallet
      ⟨some 5, []⟩).1 5 rfl
  rw [h]
  decide

/-! ## C3: chain id 0 does not keep `v` in \x7b27, 28\x7d -/

/-- **C3 counterexample.** The claim says: for a transaction with unset
chain id signed by a wallet with stored chain id 0, `v` stays in
\x7b27, 28\x7d.  The code applies the EIP-155 transform unconditionally,
so `v = 0 + 35 + 0 * 2 = 35` here, refuting the claim. -/
theorem legacy_chain_zero_v_cex :
    ¬ ((sign_transaction_sync cexSighash cexWallet cexTx).v = 27 ∨
       (sign_transaction_sync cexSighash cexWallet cexTx).v = 28) := by
  decide

/-- **C3 amended.** For every transaction with unset chain id signed by a
wallet with stored chain id 0, the EIP-155 transform is still applied
(with chain id 0): `v = recovery_id + 35`, i.e. `v ∈ \x7b35, 36\x7d`,
never \x7b27, 28\x7d. -/
theorem legacy_chain_zero_v (sighash : Tx → Nat) (w : Wallet) (tx : Tx)
    (htx : tx.chainId = none) (hw : w.chain_id = 0) :
    (sign_transaction_sync sighash w tx).v =
      ((w.signer (sighash (setChainId tx 0))).recid : Nat) + 35 ∧
    ((sign_transaction_sync sighash w tx).v = 35 ∨
     (sign_transaction_sync sighash w tx).v = 36) := by
  simp only [sign_transaction_sync, sign_hash, htx, hw, Option.getD_none,
    setChainId]
  have := (w.signer (sighash { tx with chainId := some 0 })).recid.isLt
  unfold to_eip155_v u64Mod
  omega

/-- Witness for `legacy_chain_zero_v` at the concrete legacy wallet and
chain-id-free transaction. -/
theorem legacy_chain_zero_v_witness :
    (sign_transaction_sync cexSighash cexWallet cexTx).v =
      ((cexWallet.signer (cexSighash (setChainId cexTx 0))).recid : Nat)
        + 35 ∧
    ((sign_transaction_sync cexSighash cexWallet cexTx).v = 35 ∨
     (sign_transaction_sync cexSighash cexWallet cexTx).v = 36) :=
  legacy_chain_zero_v cexSighash cexWallet cexTx rfl rfl

/-! ## C4: the Signature shape invariant -/

/-- **C4.** Every signature produced by the wallet's signing operations
has `v ∈ \x7b27, 28\x7d` (for `sign_hash`, `sign_message` and
`sign_typed_data`) or `v = recovery_id + 35 + chain_id * 2` in `u64`
arithmetic for the chain id used for signing (`sign_transaction_sync`),
and `r`, `s` are always copied verbatim from the raw signature. -/
theorem signature_shape_invariant :
    (∀ w h, (sign_hash w h).r = (w.signer h).r ∧
       (sign_hash w h).s = (w.signer h).s ∧
       ((sign_hash w h).v = 27 ∨ (sign_hash w h).v = 28)) ∧
    (∀ hash w msg,
       (sign_message hash w msg).r = (w.signer (hash_message hash msg)).r ∧
       (sign_message hash w msg).s = (w.signer (hash_message hash msg)).s ∧
       ((sign_message hash w msg).v = 27 ∨
        (sign_message hash w msg).v = 28)) ∧
    (∀ w p sig, sign_typed_data w p = Except.ok sig →
       sig.v = 27 ∨ sig.v = 28) ∧
    (∀ sighash w tx,
       (sign_transaction_sync sighash w tx).r =
         (w.signer (sighash (setChainId tx (tx.chainId.getD w.chain_id)))).r ∧
       (sign_transaction_sync sighash w tx).s =
         (w.signer (sighash (setChainId tx (tx.chainId.getD w.chain_id)))).s ∧
       (sign_transaction_sync sighash w tx).v =
         (((w.signer (sighash (setChainId tx
             (tx.chainId.getD w.chain_id)))).recid : Nat)
           + 35 + (tx.chainId.getD w.chain_id) * 2) % u64Mod) := by
  refine ⟨?_, ?_, ?_, ?_⟩
  · intro w h
    refine ⟨rfl, rfl, ?_⟩
    have := (w.signer h).recid.isLt
    simp only [sign_hash]
    omega
  · intro hash w msg
    refine ⟨rfl, rfl, ?_⟩
    have := (w.signer (hash_message hash msg)).recid.isLt
    simp only [sign_message, sign_hash]
    omega
  · intro w p sig hok
    cases hp : p.encodeEip712 with
    | error e => simp [sign_typed_data, hp] at hok
    | ok d =>
      simp only [sign_typed_data, hp, Except.ok.injEq] at hok
      have := (w.signer d).recid.isLt
      simp only [← hok, sign_hash]
      omega
  · intro sighash w tx
    refine ⟨rfl, rfl, ?_⟩
    have := (w.signer (sighash (setChainId tx
      (tx.chainId.getD w.chain_id)))).recid.isLt
    simp only [sign_transaction_sync, sign_hash]
    unfold to_eip155_v u64Mod
    omega

/-- Witness for `signature_shape_invariant`: its only hypothesis-bearing
conjunct, applied to a concrete typed-data payload whose encoder returns
digest 0. -/
theorem signature_shape_invariant_witness :
    (sign_hash cexWallet 0).v = 27 ∨ (sign_hash cexWallet 0).v = 28 :=
  signature_shape_invariant.2.2.1 cexWallet ⟨Except.ok 0⟩
    (sign_hash cexWallet 0) rfl

/-! ## C5: Tron address derivation -/

set_option maxRecDepth 40000 in
/-- **C5.** For every wallet with a 20-byte address,
`to_tron_hex_address` hex-encodes the 21-byte buffer `0x41 ++ address`,
and `to_tron_b58_address` base58-encodes the 25-byte buffer made of that
buffer and the first 4 bytes of its double SHA-256; for the wallet whose
address derives from the private key `0x4271...0091`, the hex form equals
`412A2B9F7641D0750C1E822D0E49EF765C8106524B` up to case and the display
form equals `TDpBe64DqirkKWj6HWuR1pWgmnhw2wDacE`. -/
theorem tron_address_derivation (w : Wallet) (h : w.address.length = 20) :
    to_tron_hex_address w = hexEncode (65 :: w.address) ∧
    (65 :: w.address).length = 21 ∧
    to_tron_b58_address w =
      to_base58 ((65 :: w.address) ++
        (sha256 (sha256 (65 :: w.address))).take 4) ∧
    to_tron_hex_address tronTestWallet =
      "412a2b9f7641d0750c1e822d0e49ef765c8106524b" ∧
    (to_tron_hex_address tronTestWallet).toList.map Char.toUpper =
      ("412A2B9F7641D0750C1E822D0E49EF765C8106524B").toList ∧
    to_tron_b58_address tronTestWallet =
      "TDpBe64DqirkKWj6HWuR1pWgmnhw2wDacE" := by
  refine ⟨rfl, by simp [h], rfl, by decide, by decide, by decide⟩

/-- Witness for `tron_address_derivation` at the test-vector wallet. -/
theorem tron_address_derivation_witness :
    to_tron_b58_address tronTestWallet =
      "TDpBe64DqirkKWj6HWuR1pWgmnhw2wDacE" :=
  (tron_address_derivation tronTestWallet (by decide)).2.2.2.2.2

/-! ## C6: message domain separation -/

/-- **C6.** `sign_message` signs exactly the digest of the wrapped
message (domain separator ++ length string ++ raw bytes), and under any
injective (collision-free) hash that digest differs from the hash of the
raw bytes, because the wrapped byte string is never equal to the raw
one. -/
theorem sign_message_domain_separation (hash : List Nat → Nat)
    (w : Wallet) (msg : List Nat) (hinj : Function.Injective hash) :
    sign_message hash w msg = sign_hash w (hash_message hash msg) ∧
    hash_message hash msg ≠ hash msg := by
  refine ⟨rfl, fun heq => ?_⟩
  have hpre := hinj heq
  have hlen := congrArg List.length hpre
  rw [List.length_append, List.length_append] at hlen
  have hhead : messageHeaderBytes.length = 26 := by decide
  omega

/-- Witness for `sign_message_domain_separation` with the injective
encoding of `List ℕ` into `ℕ` as the hash. -/
theorem sign_message_domain_separation_witness :
    sign_message (Encodable.encode : List Nat → Nat) cexWallet [1, 2] =
      sign_hash cexWallet
        (hash_message (Encodable.encode : List Nat → Nat) [1, 2]) ∧
    hash_message (Encodable.encode : List Nat → Nat) [1, 2] ≠
      (Encodable.encode : List Nat → Nat) [1, 2] :=
  sign_message_domain_separation (Encodable.encode : List Nat → Nat)
    cexWallet [1, 2] Encodable.encode_injective

/-! ## C7: typed-data encoding-failure propagation -/

/-- **C7.** `sign_typed_data` fails exactly when the payload's EIP-712
encoder fails; the error carries the encoder's message wrapped in
`WalletError::Eip712Error`, and on encoder success the returned digest is
signed directly (no fallback signature, no extra wrapping). -/
theorem sign_typed_data_error_propagation (w : Wallet)
    (p : Eip712Payload) :
    ((∃ err, sign_typed_data w p = Except.error err) ↔
       (∃ e, p.encodeEip712 = Except.error e)) ∧
    (∀ e, p.encodeEip712 = Except.error e →
       sign_typed_data w p = Except.error (WalletError.eip712Error e)) ∧
    (∀ d, p.encodeEip712 = Except.ok d →
       sign_typed_data w p = Except.ok (sign_hash w d)) := by
  cases hp : p.encodeEip712 with
  | error e =>
      refine ⟨⟨fun _ => ⟨e, rfl⟩,
               fun _ => ⟨WalletError.eip712Error e,
                 by simp [sign_typed_data, hp]⟩⟩, ?_, ?_⟩
      · intro e2 he2
        injection he2 with h2
        rw [← h2]
        simp [sign_typed_data, hp]
      · intro d hd
        simp at hd
  | ok d =>
      refine ⟨⟨?_, ?_⟩, ?_, ?_⟩
      · rintro ⟨err, herr⟩
        simp [sign_typed_data, hp] at herr
      · rintro ⟨e, he⟩
        simp at he
      · intro e he
        simp at he
      · intro d2 hd2
        injection hd2 with h2
        rw [← h2]
        simp [sign_typed_data, hp]

/-- Witness for `sign_typed_data_error_propagation` at a payload whose
encoder fails with message `bad`. -/
theorem sign_typed_data_error_propagation_witness :
    sign_typed_data cexWallet ⟨Except.error ("bad")⟩ =
      Except.error (WalletError.eip712Error ("bad")) :=
  (sign_typed_data_error_propagation cexWallet
    ⟨Except.error ("bad")⟩).2.1 ("bad") rfl

/-! ## C8: determinism under a fixed capability -/

/-- **C8.** With the raw signing capability a deterministic function of
the digest (as the embedding renders every capability), two signatures of
the same message by the same wallet agree component-wise: equal `r`,
equal `s`, equal `v`. -/
theorem sign_message_deterministic (hash : List Nat → Nat) (w : Wallet)
    (msg : List Nat) (sig1 sig2 : Signature)
    (h1 : sig1 = sign_message hash w msg)
    (h2 : sig2 = sign_message hash w msg) :
    sig1.r = sig2.r ∧ sig1.s = sig2.s ∧ sig1.v = sig2.v := by
  subst h1
  subst h2
  exact ⟨rfl, rfl, rfl⟩

/-- Witness for `sign_message_deterministic`: the concrete capability
answers `(5, 7, 0)`, so both signings of the empty message produce
`(5, 7, 27)`. -/
theorem sign_message_deterministic_witness :
    (⟨5, 7, 27⟩ : Signature).r =
      (sign_message (fun _ => 0) cexWallet []).r ∧
    (⟨5, 7, 27⟩ : Signature).s =
      (sign_message (fun _ => 0) cexWallet []).s ∧
    (⟨5, 7, 27⟩ : Signature).v =
      (sign_message (fun _ => 0) cexWallet []).v :=
  sign_message_deterministic (fun _ => 0) cexWallet []
    ⟨5, 7, 27⟩ (sign_message (fun _ => 0) cexWallet []) (by decide) rfl

/-! ## C9: Debug rendering redacts the signer -/

/-- **C9.** The `Debug` rendering of a wallet lists only the address and
the chain id: two wallets with equal address and equal chain id render
identically whatever their signing capabilities. -/
theorem debug_redacts_signer (addrShow : List Nat → String)
    (w1 w2 : Wallet) (ha : w1.address = w2.address)
    (hc : w1.chain_id = w2.chain_id) :
    debugFmt addrShow w1 = debugFmt addrShow w2 := by
  simp [debugFmt, ha, hc]

/-- Witness for `debug_redacts_signer`: `cexWallet` and `cexWallet2`
share address and chain id but have different capabilities. -/
theorem debug_redacts_signer_witness :
    debugFmt (fun _ => ("addr")) cexWallet =
      debugFmt (fun _ => ("addr")) cexWallet2 :=
  debug_redacts_signer (fun _ => ("addr")) cexWallet cexWallet2 rfl rfl

/-! ## C10: only transactions get EIP-155 `v` values -/

/-- **C10.** `sign_message` and `sign_typed_data` always yield
`v = recovery_id + 27 ∈ \x7b27, 28\x7d` and are unaffected by the
wallet's stored chain id (changing it with `with_chain_id` changes
nothing in their output); only `sign_transaction` applies the EIP-155
encoding. -/
theorem message_and_typed_data_ignore_chain_id (hash : List Nat → Nat)
    (w : Wallet) (msg : List Nat) (p : Eip712Payload) (c : Nat) :
    (sign_message hash w msg).v =
      ((w.signer (hash_message hash msg)).recid : Nat) + 27 ∧
    ((sign_message hash w msg).v = 27 ∨
     (sign_message hash w msg).v = 28) ∧
    sign_message hash (with_chain_id w c) msg = sign_message hash w msg ∧
    sign_typed_data (with_chain_id w c) p = sign_typed_data w p ∧
    (∀ d, p.encodeEip712 = Except.ok d →
       sign_typed_data w p = Except.ok (sign_hash w d) ∧
       (sign_hash w d).v = ((w.signer d).recid : Nat) + 27) := by
  refine ⟨rfl, ?_, rfl, rfl, ?_⟩
  · have := (w.signer (hash_message hash msg)).recid.isLt
    simp only [sign_message, sign_hash]
    omega
  · intro d hd
    exact ⟨by simp [sign_typed_data, hd], rfl⟩

/-- Witness for `message_and_typed_data_ignore_chain_id` at a payload
whose encoder returns digest 3. -/
theorem message_and_typed_data_ignore_chain_id_witness :
    sign_typed_data cexWallet ⟨Except.ok 3⟩ =
      Except.ok (sign_hash cexWallet 3) ∧
    (sign_hash cexWallet 3).v = ((cexWallet.signer 3).recid : Nat) + 27 :=
  (message_and_typed_data_ignore_chain_id (fun _ => 0) cexWallet []
    ⟨Except.ok 3⟩ 9).2.2.2.2 3 rfl

end EthersSigners
